import Mathlib

/-!
Verification of the PrOMMiS repository specification against a shallow
embedding of its two source modules:

* `prommis_workspace/UKy_flowsheet/Translators/translator_SX_leaching.py`
  (the `Translator_SX_leaching` block: `build` and `initialize_build`), and
* `src/prommis/nanofiltration/membrane_cascade_flowsheet/solve_diafiltration.py`
  (the command-line driver `main`).

Pure model structure (constraint lists) and control flow (event traces plus
outcomes) are embedded directly from the Python source.  Quantities are
rationals; machine reals of the source are exact decimal literals, so `ℚ`
represents them exactly.
-/

namespace TranslatorSX

/-- A per-time-point stream state as exposed by the property packages:
a volumetric flow and a mass concentration for each named component
(concentrations in mg/L, matching the units used in the source). -/
structure SXState where
  flow_vol : ℚ
  conc_mass_comp : String → ℚ

/-- The `self.metals` index set, initialized in `build`. -/
def metals : List String :=
  ["Al", "Ca", "Fe", "Sc", "Y", "La", "Ce", "Pr", "Nd", "Sm", "Gd", "Dy"]

/-- The `self.acids` index set, initialized in `build`. -/
def acids : List String := ["H", "HSO4", "SO4"]

/-- One constraint emitted by `Translator_SX_leaching.build`, identified by
its family and its index (time point, and species where applicable). -/
inductive TransConstraint where
  | flowVolEq (t : Nat)
  | metalEq (t : Nat) (i : String)
  | waterEq (t : Nat)
  | acidEq (t : Nat) (i : String)
  deriving DecidableEq, Repr

/-- The meaning of each emitted constraint, as an equation over the inlet
state (`properties_in`) and outlet state (`properties_out`) at a time point:

* `eq_flow_vol_rule`: `properties_out[t].flow_vol == properties_in[t].flow_vol`;
* `eq_conc_mass_metals`: `properties_out[t].conc_mass_comp[i] == properties_in[t].conc_mass_comp[i]`;
* `eq_conc_mass_water`: `properties_out[t].conc_mass_comp["H2O"] == 1e6 mg/L`;
* `eq_conc_mass_acids`: `properties_out[t].conc_mass_comp[i] == 1e-10 mg/L`. -/
def holds (inS outS : Nat → SXState) : TransConstraint → Prop
  | .flowVolEq t => (outS t).flow_vol = (inS t).flow_vol
  | .metalEq t i => (outS t).conc_mass_comp i = (inS t).conc_mass_comp i
  | .waterEq t => (outS t).conc_mass_comp "H2O" = (1000000 : ℚ)
  | .acidEq t i => (outS t).conc_mass_comp i = (1 / 10 ^ 10 : ℚ)

instance holdsDecidable (inS outS : Nat → SXState) :
    (c : TransConstraint) → Decidable (holds inS outS c)
  | .flowVolEq t => inferInstanceAs (Decidable ((outS t).flow_vol = (inS t).flow_vol))
  | .metalEq t i =>
      inferInstanceAs (Decidable ((outS t).conc_mass_comp i = (inS t).conc_mass_comp i))
  | .waterEq t => inferInstanceAs (Decidable ((outS t).conc_mass_comp "H2O" = (1000000 : ℚ)))
  | .acidEq t i =>
      inferInstanceAs (Decidable ((outS t).conc_mass_comp i = (1 / 10 ^ 10 : ℚ)))

/-- The full list of constraints emitted by `build` over a time set, in
declaration order: the volumetric-flow family, then the metal family over
`time × metals`, then the water family, then the acid family over
`time × acids`. -/
def translatorConstraints (times : List Nat) : List TransConstraint :=
  times.map TransConstraint.flowVolEq
    ++ (times.product metals).map (fun p => TransConstraint.metalEq p.1 p.2)
    ++ times.map TransConstraint.waterEq
    ++ (times.product acids).map (fun p => TransConstraint.acidEq p.1 p.2)

/-- Looking a component name up in an indexed `conc_mass_comp` variable:
Pyomo raises a `KeyError` at expression-construction time when the index is
not in the block's component set. -/
def checkIndex (comps : List String) (i : String) : Except String Unit :=
  if i ∈ comps then Except.ok () else Except.error ("KeyError: " ++ i)

/-- Constructing one family of constraints index by index; the first failed
component lookup aborts the build (the exception propagates out of the
Pyomo `Constraint` rule). -/
def buildFamily {α : Type} (idx : List α) (mk : α → Except String TransConstraint) :
    Except String (List TransConstraint) :=
  match idx with
  | [] => Except.ok []
  | a :: rest => do
      let c ← mk a
      let cs ← buildFamily rest mk
      Except.ok (c :: cs)

/-- `Translator_SX_leaching.build`: emits the four constraint families in
order.  `inComps` / `outComps` are the component sets of the upstream
(`properties_in`) and downstream (`properties_out`) property packages; each
`conc_mass_comp[...]` reference in a rule is a fallible index lookup.  For
the metal rules the downstream side is written first in the source
(`blk.properties_out[t].conc_mass_comp[i] == blk.properties_in[t].conc_mass_comp[i]`),
so the downstream lookup happens first. -/
def build (times : List Nat) (inComps outComps : List String) :
    Except String (List TransConstraint) := do
  let flowCs ← buildFamily times (fun t => Except.ok (TransConstraint.flowVolEq t))
  let metalCs ← buildFamily (times.product metals) (fun p => do
      checkIndex outComps p.2
      checkIndex inComps p.2
      Except.ok (TransConstraint.metalEq p.1 p.2))
  let waterCs ← buildFamily times (fun t => do
      checkIndex outComps "H2O"
      Except.ok (TransConstraint.waterEq t))
  let acidCs ← buildFamily (times.product acids) (fun p => do
      checkIndex outComps p.2
      Except.ok (TransConstraint.acidEq p.1 p.2))
  Except.ok (flowCs ++ metalCs ++ waterCs ++ acidCs)

/-- When every referenced component is present on the side that references
it, a constraint family builds successfully and is exactly the mapped
index list. -/
theorem buildFamily_ok {α : Type} (idx : List α) (mk : α → Except String TransConstraint)
    (f : α → TransConstraint) (h : ∀ a ∈ idx, mk a = Except.ok (f a)) :
    buildFamily idx mk = Except.ok (idx.map f) := by
  induction idx with
  | nil => rfl
  | cons a rest ih =>
      have ha := h a (List.mem_cons_self a rest)
      have hrest := ih (fun b hb => h b (List.mem_cons_of_mem a hb))
      simp only [buildFamily, ha, hrest]
      rfl

/-- `build` succeeds and emits exactly `translatorConstraints times` whenever
the upstream package carries every metal and the downstream package carries
every metal, water and every acid. -/
theorem build_ok (times : List Nat) (inComps outComps : List String)
    (hin : ∀ i ∈ metals, i ∈ inComps)
    (houtM : ∀ i ∈ metals, i ∈ outComps)
    (houtW : "H2O" ∈ outComps)
    (houtA : ∀ i ∈ acids, i ∈ outComps) :
    build times inComps outComps = Except.ok (translatorConstraints times) := by
  have hflow : buildFamily times (fun t => Except.ok (TransConstraint.flowVolEq t)) =
      Except.ok (times.map TransConstraint.flowVolEq) :=
    buildFamily_ok _ _ _ (fun a _ => rfl)
  have hmetal : buildFamily (times.product metals) (fun p => do
        checkIndex outComps p.2
        checkIndex inComps p.2
        Except.ok (TransConstraint.metalEq p.1 p.2)) =
      Except.ok ((times.product metals).map (fun p => TransConstraint.metalEq p.1 p.2)) := by
    refine buildFamily_ok _ _ _ (fun p hp => ?_)
    have hpm : p.2 ∈ metals := (List.mem_product.mp hp).2
    simp only [checkIndex, if_pos (hin p.2 hpm), if_pos (houtM p.2 hpm)]
    rfl
  have hwater : buildFamily times (fun t => do
        checkIndex outComps "H2O"
        Except.ok (TransConstraint.waterEq t)) =
      Except.ok (times.map TransConstraint.waterEq) := by
    refine buildFamily_ok _ _ _ (fun t _ => ?_)
    simp only [checkIndex, if_pos houtW]
    rfl
  have hacid : buildFamily (times.product acids) (fun p => do
        checkIndex outComps p.2
        Except.ok (TransConstraint.acidEq p.1 p.2)) =
      Except.ok ((times.product acids).map (fun p => TransConstraint.acidEq p.1 p.2)) := by
    refine buildFamily_ok _ _ _ (fun p hp => ?_)
    have hpa : p.2 ∈ acids := (List.mem_product.mp hp).2
    simp only [checkIndex, if_pos (houtA p.2 hpa)]
    rfl
  simp only [build, hflow, hmetal, hwater, hacid, translatorConstraints]
  rfl


/-- The `flowVolEq t` constraint is emitted for every time point. -/
theorem flowVolEq_mem (times : List Nat) (t : Nat) (ht : t ∈ times) :
    TransConstraint.flowVolEq t ∈ translatorConstraints times := by
  unfold translatorConstraints
  exact List.mem_append_left _ (List.mem_append_left _
    (List.mem_append_left _ (List.mem_map_of_mem _ ht)))

/-- The `metalEq t i` constraint is emitted for every time point and metal. -/
theorem metalEq_mem (times : List Nat) (t : Nat) (i : String)
    (ht : t ∈ times) (hi : i ∈ metals) :
    TransConstraint.metalEq t i ∈ translatorConstraints times := by
  unfold translatorConstraints
  have hp : (t, i) ∈ times.product metals := List.mem_product.mpr ⟨ht, hi⟩
  exact List.mem_append_left _ (List.mem_append_left _
    (List.mem_append_right _ (List.mem_map_of_mem _ hp)))

/-- The `waterEq t` constraint is emitted for every time point. -/
theorem waterEq_mem (times : List Nat) (t : Nat) (ht : t ∈ times) :
    TransConstraint.waterEq t ∈ translatorConstraints times := by
  unfold translatorConstraints
  exact List.mem_append_left _ (List.mem_append_right _ (List.mem_map_of_mem _ ht))

/-- The `acidEq t i` constraint is emitted for every time point and acid. -/
theorem acidEq_mem (times : List Nat) (t : Nat) (i : String)
    (ht : t ∈ times) (hi : i ∈ acids) :
    TransConstraint.acidEq t i ∈ translatorConstraints times := by
  unfold translatorConstraints
  have hp : (t, i) ∈ times.product acids := List.mem_product.mpr ⟨ht, hi⟩
  exact List.mem_append_right _ (List.mem_map_of_mem _ hp)

/-- C1: for every time point, the constraints emitted by
`Translator_SX_leaching.build` force each downstream metal concentration
(for the twelve metals) to equal its upstream value, each downstream acid
concentration (H, HSO4, SO4) to equal the reference constant 1e-10 mg/L,
and the downstream water concentration to equal the saturation reference
1e6 mg/L — the latter independent of the upstream water value, since the
conclusion holds for every choice of the upstream state `inS`. -/
theorem translator_constraint_semantics (times : List Nat) (inS outS : Nat → SXState)
    (hsat : ∀ c ∈ translatorConstraints times, holds inS outS c)
    (t : Nat) (ht : t ∈ times) :
    (∀ i ∈ metals, (outS t).conc_mass_comp i = (inS t).conc_mass_comp i) ∧
    (∀ i ∈ acids, (outS t).conc_mass_comp i = (1 / 10 ^ 10 : ℚ)) ∧
    (outS t).conc_mass_comp "H2O" = (1000000 : ℚ) := by
  refine ⟨fun i hi => ?_, fun i hi => ?_, ?_⟩
  · exact hsat _ (metalEq_mem times t i ht hi)
  · exact hsat _ (acidEq_mem times t i ht hi)
  · exact hsat _ (waterEq_mem times t ht)

/-- A concrete upstream state used to instantiate the translator theorems. -/
def inWitness : Nat → SXState := fun _ =>
  { flow_vol := 7, conc_mass_comp := fun i => if i = "H2O" then 555 else 3 }

/-- A concrete downstream state satisfying every emitted constraint against
`inWitness`. -/
def outWitness : Nat → SXState := fun _ =>
  { flow_vol := 7,
    conc_mass_comp := fun i =>
      if i = "H2O" then 1000000 else if i ∈ acids then 1 / 10 ^ 10 else 3 }

/-- Witness for C1 at the steady-state time set `[0]` and concrete states. -/
theorem translator_constraint_semantics_witness :
    (∀ i ∈ metals, (outWitness 0).conc_mass_comp i = (inWitness 0).conc_mass_comp i) ∧
    (∀ i ∈ acids, (outWitness 0).conc_mass_comp i = (1 / 10 ^ 10 : ℚ)) ∧
    (outWitness 0).conc_mass_comp "H2O" = (1000000 : ℚ) :=
  translator_constraint_semantics [0] inWitness outWitness
    (by
      intro c hc
      fin_cases hc <;> simp [holds, inWitness, outWitness, acids])
    0 (List.mem_singleton.mpr rfl)

/-- If any index of a family fails its component lookups, the family build
returns an error (the first failing lookup encountered). -/
theorem buildFamily_error {α : Type} (idx : List α) (mk : α → Except String TransConstraint)
    (a : α) (ha : a ∈ idx) (e : String) (he : mk a = Except.error e) :
    ∃ msg, buildFamily idx mk = Except.error msg := by
  induction idx with
  | nil => exact absurd ha (List.not_mem_nil a)
  | cons b rest ih =>
      rcases List.mem_cons.mp ha with hab | harest
      · refine ⟨e, ?_⟩
        subst hab
        simp only [buildFamily, he]
        rfl
      · cases hmkb : mk b with
        | error e2 =>
            refine ⟨e2, ?_⟩
            simp only [buildFamily, hmkb]
            rfl
        | ok c =>
            obtain ⟨m, hm⟩ := ih harest
            refine ⟨m, ?_⟩
            simp only [buildFamily, hmkb, hm]
            rfl

/-- C6: if an expected metal pass-through quantity is absent from the
upstream (or downstream) component set — in particular when the two solute
sets are disjoint — `Translator_SX_leaching.build` raises the error during
`build` itself (the constraint-rule index lookup fails at construction
time); it never returns a built constraint list, so mismatched solute sets
cannot reach the solve. -/
theorem translator_disjoint_sets_error_at_build (times : List Nat)
    (inComps outComps : List String) (t : Nat) (ht : t ∈ times)
    (i : String) (hi : i ∈ metals) (hmiss : i ∉ inComps ∨ i ∉ outComps) :
    ∃ msg, build times inComps outComps = Except.error msg := by
  have hmk : (do
      checkIndex outComps i
      checkIndex inComps i
      Except.ok (TransConstraint.metalEq t i)) = Except.error ("KeyError: " ++ i) := by
    by_cases hout : i ∈ outComps
    · have hin : i ∉ inComps := by
        rcases hmiss with h | h
        · exact h
        · exact absurd hout h
      simp only [checkIndex, if_pos hout, if_neg hin]
      rfl
    · simp only [checkIndex, if_neg hout]
      rfl
  have hmem : (t, i) ∈ times.product metals := List.mem_product.mpr ⟨ht, hi⟩
  obtain ⟨m, hm⟩ := buildFamily_error (times.product metals)
    (fun p => do
      checkIndex outComps p.2
      checkIndex inComps p.2
      Except.ok (TransConstraint.metalEq p.1 p.2))
    (t, i) hmem _ hmk
  refine ⟨m, ?_⟩
  have hflow : buildFamily times (fun t => Except.ok (TransConstraint.flowVolEq t)) =
      Except.ok (times.map TransConstraint.flowVolEq) :=
    buildFamily_ok _ _ _ (fun a _ => rfl)
  simp only [build, hflow, hm]
  rfl

/-- Witness for C6: a one-point time set with an upstream package carrying
no metals at all (fully disjoint solute sets). -/
theorem translator_disjoint_sets_error_at_build_witness :
    ∃ msg, build [0] [] ["H2O", "H", "HSO4", "SO4"] = Except.error msg :=
  translator_disjoint_sets_error_at_build [0] [] ["H2O", "H", "HSO4", "SO4"]
    0 (List.mem_singleton.mpr rfl) "Al" (by decide) (Or.inl (by decide))

/-- The downstream variable fixed by each emitted constraint: the outlet
volumetric flow for the flow equality, and the outlet concentration of the
referenced component for the three concentration families. -/
inductive DownVar where
  | flowVar (t : Nat)
  | concVar (t : Nat) (i : String)
  deriving DecidableEq, Repr

/-- Each constraint of `translatorConstraints` mentions exactly one
downstream (outlet) variable; this is that variable. -/
def determinedVar : TransConstraint → DownVar
  | .flowVolEq t => DownVar.flowVar t
  | .metalEq t i => DownVar.concVar t i
  | .waterEq t => DownVar.concVar t "H2O"
  | .acidEq t i => DownVar.concVar t i


/-- C7: over a duplicate-free time set, `build` emits exactly one equality
constraint per shared quantity (count one for the volumetric-flow equality
and for each per-component concentration equality at each time point), the
volumetric-flow constraint equates the downstream flow to the upstream
flow, and no two emitted constraints determine the same downstream
variable: each constraint determines exactly one fresh outlet variable, so
the bridge introduces no new free variables. -/
theorem translator_one_constraint_per_quantity (times : List Nat) (hnd : times.Nodup) :
    ((translatorConstraints times).map determinedVar).Nodup ∧
    (∀ t ∈ times,
      (translatorConstraints times).count (TransConstraint.flowVolEq t) = 1 ∧
      (∀ i ∈ metals, (translatorConstraints times).count (TransConstraint.metalEq t i) = 1) ∧
      (translatorConstraints times).count (TransConstraint.waterEq t) = 1 ∧
      (∀ i ∈ acids, (translatorConstraints times).count (TransConstraint.acidEq t i) = 1)) ∧
    (∀ inS outS t, holds inS outS (TransConstraint.flowVolEq t) ↔
      (outS t).flow_vol = (inS t).flow_vol) := by
  have hmnd : metals.Nodup := by decide
  have hand : acids.Nodup := by decide
  have hmap : (translatorConstraints times).map determinedVar =
      times.map DownVar.flowVar
        ++ (((times.product metals).map fun p => DownVar.concVar p.1 p.2)
        ++ ((times.map fun t => DownVar.concVar t "H2O")
        ++ ((times.product acids).map fun p => DownVar.concVar p.1 p.2))) := by
    simp only [translatorConstraints, List.map_append, List.map_map, List.append_assoc]
    rfl
  have injFlow : Function.Injective DownVar.flowVar := by
    intro a b h
    injection h
  have injPair : Function.Injective (fun p : Nat × String => DownVar.concVar p.1 p.2) := by
    rintro ⟨a1, a2⟩ ⟨b1, b2⟩ h
    injection h with h1 h2
    cases h1
    cases h2
    rfl
  have injWater : Function.Injective (fun t => DownVar.concVar t "H2O") := by
    intro a b h
    injection h
  have ndA : (times.map DownVar.flowVar).Nodup := hnd.map injFlow
  have ndB : ((times.product metals).map fun p => DownVar.concVar p.1 p.2).Nodup :=
    (hnd.product hmnd).map injPair
  have ndC : (times.map fun t => DownVar.concVar t "H2O").Nodup := hnd.map injWater
  have ndD : ((times.product acids).map fun p => DownVar.concVar p.1 p.2).Nodup :=
    (hnd.product hand).map injPair
  have dCD : (times.map fun t => DownVar.concVar t "H2O").Disjoint
      ((times.product acids).map fun p => DownVar.concVar p.1 p.2) := by
    intro x hx hy
    simp only [List.mem_map] at hx hy
    obtain ⟨t1, _, rfl⟩ := hx
    obtain ⟨p, hp, he⟩ := hy
    injection he with h1 h2
    have hacid : p.2 ∈ acids := (List.mem_product.mp hp).2
    rw [h2] at hacid
    exact absurd hacid (by decide)
  have dB_CD : ((times.product metals).map fun p => DownVar.concVar p.1 p.2).Disjoint
      ((times.map fun t => DownVar.concVar t "H2O")
        ++ ((times.product acids).map fun p => DownVar.concVar p.1 p.2)) := by
    intro x hx hy
    simp only [List.mem_map] at hx
    obtain ⟨p, hp, rfl⟩ := hx
    have hmetal : p.2 ∈ metals := (List.mem_product.mp hp).2
    rcases List.mem_append.mp hy with h | h
    · simp only [List.mem_map] at h
      obtain ⟨t2, _, he⟩ := h
      injection he with h1 h2
      rw [← h2] at hmetal
      exact absurd hmetal (by decide)
    · simp only [List.mem_map] at h
      obtain ⟨q, hq, he⟩ := h
      injection he with h1 h2
      have hacid : q.2 ∈ acids := (List.mem_product.mp hq).2
      rw [h2] at hacid
      have hdisj : ∀ i ∈ metals, i ∉ acids := by decide
      exact hdisj p.2 hmetal hacid
  have dA_BCD : (times.map DownVar.flowVar).Disjoint
      (((times.product metals).map fun p => DownVar.concVar p.1 p.2)
        ++ ((times.map fun t => DownVar.concVar t "H2O")
        ++ ((times.product acids).map fun p => DownVar.concVar p.1 p.2))) := by
    intro x hx hy
    simp only [List.mem_map] at hx
    obtain ⟨t1, _, rfl⟩ := hx
    simp only [List.mem_append, List.mem_map] at hy
    rcases hy with ⟨p, _, he⟩ | ⟨t2, _, he⟩ | ⟨p, _, he⟩ <;> cases he
  have hnodup : ((translatorConstraints times).map determinedVar).Nodup := by
    rw [hmap]
    exact ndA.append (ndB.append (ndC.append ndD dCD) dB_CD) dA_BCD
  have hndList : (translatorConstraints times).Nodup := List.Nodup.of_map _ hnodup
  refine ⟨hnodup, fun t ht => ?_, fun inS outS t => Iff.rfl⟩
  exact ⟨List.count_eq_one_of_mem hndList (flowVolEq_mem times t ht),
    fun i hi => List.count_eq_one_of_mem hndList (metalEq_mem times t i ht hi),
    List.count_eq_one_of_mem hndList (waterEq_mem times t ht),
    fun i hi => List.count_eq_one_of_mem hndList (acidEq_mem times t i ht hi)⟩

/-- Witness for C7 at the steady-state time set `[0]`. -/
theorem translator_one_constraint_per_quantity_witness :
    ((translatorConstraints [0]).map determinedVar).Nodup ∧
    (∀ t ∈ [0],
      (translatorConstraints [0]).count (TransConstraint.flowVolEq t) = 1 ∧
      (∀ i ∈ metals, (translatorConstraints [0]).count (TransConstraint.metalEq t i) = 1) ∧
      (translatorConstraints [0]).count (TransConstraint.waterEq t) = 1 ∧
      (∀ i ∈ acids, (translatorConstraints [0]).count (TransConstraint.acidEq t i) = 1)) ∧
    (∀ inS outS t, holds inS outS (TransConstraint.flowVolEq t) ↔
      (outS t).flow_vol = (inS t).flow_vol) :=
  translator_one_constraint_per_quantity [0] (List.nodup_singleton 0)

/-- The externally determined quantities that `initialize_build` consults:
the block name (`self.name`), the degree-of-freedom count of the block
after both state blocks are initialized (`degrees_of_freedom(self)`), and
whether the local solve terminates optimally
(`check_optimal_termination(res)`). -/
structure InitEnv where
  name : String
  dof : Int
  solveOptimal : Bool
  deriving DecidableEq

/-- The observable side effects of `initialize_build`, in program order. -/
inductive InitEvent where
  | initPropsIn (hold_state : Bool)
  | initPropsOut
  | solveCall
  | releaseState
  | logComplete
  deriving DecidableEq, Repr

/-- How `initialize_build` terminates: the generic `Exception` raised when
the degree-of-freedom count is nonzero (its f-string message carries the
block name and the recomputed count), the `InitializationError` raised on
a non-optimal local solve (its message carries the block name), or a
normal return. -/
inductive InitOutcome where
  | dofException (blockName : String) (dof : Int)
  | initializationError (blockName : String)
  | ok
  deriving DecidableEq, Repr

/-- `Translator_SX_leaching.initialize_build`: initializes the inlet state
block with `hold_state=True` and the outlet state block, raises when
`degrees_of_freedom(self) != 0`, otherwise runs the local solve, releases
the inlet state, logs completion, and finally raises `InitializationError`
when the solve was not optimal.  The returned pair is the ordered event
trace together with the termination outcome. -/
def initialize_build (env : InitEnv) : List InitEvent × InitOutcome :=
  let ev := [InitEvent.initPropsIn true, InitEvent.initPropsOut]
  if env.dof ≠ 0 then
    (ev, InitOutcome.dofException env.name env.dof)
  else
    let ev := ev ++ [InitEvent.solveCall, InitEvent.releaseState, InitEvent.logComplete]
    if env.solveOptimal then (ev, InitOutcome.ok)
    else (ev, InitOutcome.initializationError env.name)

/-- C2: after both state blocks are initialized, a nonzero
degree-of-freedom count raises an exception carrying the block name and
the count, and the local solve is attempted exactly when the count is
zero. -/
theorem initialize_build_dof_check (env : InitEnv) :
    (env.dof ≠ 0 →
      initialize_build env =
        ([InitEvent.initPropsIn true, InitEvent.initPropsOut],
          InitOutcome.dofException env.name env.dof) ∧
      InitEvent.solveCall ∉ (initialize_build env).1) ∧
    (InitEvent.solveCall ∈ (initialize_build env).1 ↔ env.dof = 0) := by
  by_cases h : env.dof = 0
  · constructor
    · intro hne
      exact absurd h hne
    · simp only [initialize_build, h]
      by_cases hopt : env.solveOptimal <;> simp [hopt]
  · constructor
    · intro _
      constructor
      · simp [initialize_build, h]
      · simp [initialize_build, h]
    · simp [initialize_build, h]

/-- Witness for C2 at a concrete nonzero-DoF environment. -/
theorem initialize_build_dof_check_witness :
    initialize_build ⟨"fs.translator", 2, true⟩ =
      ([InitEvent.initPropsIn true, InitEvent.initPropsOut],
        InitOutcome.dofException "fs.translator" 2) ∧
    InitEvent.solveCall ∉ (initialize_build ⟨"fs.translator", 2, true⟩).1 :=
  (initialize_build_dof_check ⟨"fs.translator", 2, true⟩).1 (by decide)

/-- C3: when the degree-of-freedom check passes but the local solve does
not terminate optimally, `initialize_build` ends in an
`InitializationError` naming the block; it never returns normally. -/
theorem initialize_build_nonoptimal_raises (env : InitEnv)
    (hdof : env.dof = 0) (hopt : env.solveOptimal = false) :
    (initialize_build env).2 = InitOutcome.initializationError env.name ∧
    (initialize_build env).2 ≠ InitOutcome.ok := by
  simp [initialize_build, hdof, hopt]

/-- Witness for C3 at a concrete environment with a failing local solve. -/
theorem initialize_build_nonoptimal_raises_witness :
    (initialize_build ⟨"fs.translator", 0, false⟩).2 =
      InitOutcome.initializationError "fs.translator" ∧
    (initialize_build ⟨"fs.translator", 0, false⟩).2 ≠ InitOutcome.ok :=
  initialize_build_nonoptimal_raises ⟨"fs.translator", 0, false⟩ rfl rfl

/-- C9: the inlet state held during initialization is released exactly when
the degree-of-freedom check passes: on a non-optimal solve the release (and
the completion log message) still happen and only then is the
`InitializationError` raised, while on a nonzero degree-of-freedom count
the exception is raised with no release, leaving the inlet state held. -/
theorem initialize_build_release_iff_dof_zero (env : InitEnv) :
    (InitEvent.releaseState ∈ (initialize_build env).1 ↔ env.dof = 0) ∧
    (env.dof = 0 → env.solveOptimal = false →
      (initialize_build env).1 =
        [InitEvent.initPropsIn true, InitEvent.initPropsOut, InitEvent.solveCall,
          InitEvent.releaseState, InitEvent.logComplete] ∧
      (initialize_build env).2 = InitOutcome.initializationError env.name) ∧
    (env.dof ≠ 0 → InitEvent.releaseState ∉ (initialize_build env).1) := by
  by_cases h : env.dof = 0
  · refine ⟨?_, fun _ hopt => ?_, fun hne => absurd h hne⟩
    · simp only [initialize_build, h]
      by_cases hopt : env.solveOptimal <;> simp [hopt]
    · simp [initialize_build, h, hopt]
  · refine ⟨?_, fun hz => absurd hz h, fun _ => ?_⟩
    · simp [initialize_build, h]
    · simp [initialize_build, h]

/-- Witness for C9: with a zero degree-of-freedom count and a non-optimal
solve, release and completion logging happen and the outcome is the
`InitializationError`. -/
theorem initialize_build_release_iff_dof_zero_witness :
    (initialize_build ⟨"fs.translator", 0, false⟩).1 =
      [InitEvent.initPropsIn true, InitEvent.initPropsOut, InitEvent.solveCall,
        InitEvent.releaseState, InitEvent.logComplete] ∧
    (initialize_build ⟨"fs.translator", 0, false⟩).2 =
      InitOutcome.initializationError "fs.translator" :=
  (initialize_build_release_iff_dof_zero ⟨"fs.translator", 0, false⟩).2.1 rfl rfl

end TranslatorSX

namespace Diafiltration

/-- A boundary stream of the driver: solvent volumetric flow (m^3/hr) and
the two solute mass flows (kg/hr), mirroring the `feed` / `diaf` dicts. -/
structure StreamSpec where
  solvent : ℚ
  Li : ℚ
  Co : ℚ
  deriving DecidableEq, Repr

/-- The keyword arguments `main` passes to the `DiafiltrationModel`
constructor.  The Python dicts become association lists in declaration
order. -/
structure DiafConfig where
  NS : Int
  NT : Int
  solutes : List String
  flux : ℚ
  sieving_coefficient : List (String × ℚ)
  feed : StreamSpec
  diafiltrate : StreamSpec
  precipitate : Bool
  precipitate_yield_permeate : List (String × ℚ)
  precipitate_yield_retentate : List (String × ℚ)
  deriving DecidableEq, Repr

/-- External facts about the assembled model and the solver that a checking
driver could consult: the model's degree-of-freedom count and whether the
single ipopt solve terminates optimally.  `main` receives them but — as the
theorems below show — never branches on them. -/
structure SolveEnv where
  dof : Int
  optimalTermination : Bool
  deriving DecidableEq

/-- Python-level failures of the argument-collection lines: `args[i]` on a
short list raises `IndexError`; `int(s)` on a non-integer literal raises
`ValueError`. -/
inductive PyError where
  | indexError
  | valueError (arg : String)
  deriving DecidableEq, Repr

/-- The observable steps of `main` after argument collection, in program
order. -/
inductive MainEvent where
  | build_flowsheet (cfg : DiafConfig) (mixing : String)
  | initModel (mixing : String) (precipitate : Bool)
  | unfix_dof (mixing : String) (precipitate : Bool)
  | fixV (unit : String) (value : ℚ)
  | report_statistics
  | setR (value : ℚ)
  | solveModel
  | display (attr : String)
  | report_values
  deriving DecidableEq, Repr

/-- `args[i]`: list indexing with Python semantics (out of range raises
`IndexError`). -/
def getArg (args : List String) (i : Nat) : Except PyError String :=
  match args.get? i with
  | some s => Except.ok s
  | none => Except.error PyError.indexError

/-- Digit-string accumulator for `pyInt`. -/
def parseDigits (acc : Nat) : List Char → Option Nat
  | [] => some acc
  | c :: cs => if c.isDigit then parseDigits (10 * acc + (c.toNat - 48)) cs else none

/-- Python `int(s)` on a decimal string: an optional minus sign followed by
one or more digits; anything else raises `ValueError`. -/
def pyInt (s : String) : Except PyError Int :=
  match s.data with
  | [] => Except.error (PyError.valueError s)
  | c :: cs =>
      if c = Char.ofNat 45 then
        match cs with
        | [] => Except.error (PyError.valueError s)
        | _ :: _ =>
            match parseDigits 0 cs with
            | some n => Except.ok (-(n : Int))
            | none => Except.error (PyError.valueError s)
      else
        match parseDigits 0 (c :: cs) with
        | some n => Except.ok ((n : Int))
        | none => Except.error (PyError.valueError s)

/-- The argument-collection lines of `main`:
`args = args[1:]; mix_style = args[0]; num_s = int(args[1]); num_t = int(args[2])`
(applied to the already-shifted list). -/
def parseArgs (args : List String) : Except PyError (String × Int × Int) := do
  let mix_style ← getArg args 0
  let a1 ← getArg args 1
  let num_s ← pyInt a1
  let a2 ← getArg args 2
  let num_t ← pyInt a2
  Except.ok (mix_style, num_s, num_t)

/-- The `DiafiltrationModel(...)` keyword arguments of `main`, verbatim:
solutes `["Li", "Co"]`, flux `0.1`, sieving coefficients `Li: 1.3`,
`Co: 0.5`, feed `solvent: 100, Li: 1.7*100, Co: 17*100`, diafiltrate
`solvent: 30, Li: 0.1*30, Co: 0.2*30`, `precipitate=True`, and the
precipitate yields `permeate Li: 0.81, Co: 0.01`,
`retentate Li: 0.20, Co: 0.89`. -/
def mainConfig (num_s num_t : Int) : DiafConfig :=
  { NS := num_s
    NT := num_t
    solutes := ["Li", "Co"]
    flux := 1 / 10
    sieving_coefficient := [("Li", 13 / 10), ("Co", 5 / 10)]
    feed := { solvent := 100, Li := (17 / 10) * 100, Co := 17 * 100 }
    diafiltrate := { solvent := 30, Li := (1 / 10) * 30, Co := (2 / 10) * 30 }
    precipitate := true
    precipitate_yield_permeate := [("Li", 81 / 100), ("Co", 1 / 100)]
    precipitate_yield_retentate := [("Li", 20 / 100), ("Co", 89 / 100)] }

/-- The body of `main` after argument collection, as its ordered event
trace: build the flowsheet, initialize, unfix the initialization degrees of
freedom, fix both precipitator capacities to 500, report statistics, set
`m.R = 0.8`, run the single ipopt solve, display the two precipitator
percent recoveries, and print the full stream report. -/
def mainTrace (mix_style : String) (num_s num_t : Int) : List MainEvent :=
  [MainEvent.build_flowsheet (mainConfig num_s num_t) mix_style,
    MainEvent.initModel mix_style true,
    MainEvent.unfix_dof mix_style true,
    MainEvent.fixV "retentate" 500,
    MainEvent.fixV "permeate" 500,
    MainEvent.report_statistics,
    MainEvent.setR (8 / 10),
    MainEvent.solveModel,
    MainEvent.display "prec_perc_co",
    MainEvent.display "prec_perc_li",
    MainEvent.report_values]

/-- `main(args)` of `solve_diafiltration.py`: collects the three positional
arguments from `argv[1:]` and runs the fixed driver body.  Nothing in the
body reads `env`: the trace and the normal return are independent of the
degree-of-freedom count and of the solver termination status. -/
def main (argv : List String) (env : SolveEnv) : Except PyError (List MainEvent) := do
  let (mix_style, num_s, num_t) ← parseArgs (argv.drop 1)
  Except.ok (mainTrace mix_style num_s num_t)

/-- A successful run always produces the fixed driver trace for the parsed
arguments. -/
theorem main_ok_shape (argv : List String) (env : SolveEnv) (tr : List MainEvent)
    (h : main argv env = Except.ok tr) :
    ∃ mix n1 n2, tr = mainTrace mix n1 n2 := by
  cases hp : parseArgs (argv.drop 1) with
  | error e =>
      rw [main, hp] at h
      exact absurd h (by simp [Bind.bind, Except.bind])
  | ok v =>
      obtain ⟨mix, n1, n2⟩ := v
      rw [main, hp] at h
      refine ⟨mix, n1, n2, ?_⟩
      have : Except.ok (mainTrace mix n1 n2) = Except.ok tr := h
      injection this with h2
      exact h2.symm


/-- A successful parse of the shifted argument list determines the whole
run. -/
theorem main_eq_of_parse (argv : List String) (env : SolveEnv) (mix : String)
    (n1 n2 : Int) (hp : parseArgs (argv.drop 1) = Except.ok (mix, n1, n2)) :
    main argv env = Except.ok (mainTrace mix n1 n2) := by
  unfold main
  rw [hp]
  rfl

/-- C8: `main` reads the mixing-strategy name, stage count and tube count
as the three positional arguments and then runs the driver body with the
hard-coded data: solutes `["Li", "Co"]`, feed solvent flow 100 with Li 170
and Co 1700, diafiltrate solvent flow 30 with Li 3 and Co 6, flux 0.1,
sieving coefficients Li 1.3 and Co 0.5, and — after initialization and
unfixing — fixes both precipitator capacity variables to 500. -/
theorem main_hardcoded_configuration (prog mix s1 s2 : String) (rest : List String)
    (n1 n2 : Int) (env : SolveEnv)
    (h1 : pyInt s1 = Except.ok n1) (h2 : pyInt s2 = Except.ok n2) :
    main (prog :: mix :: s1 :: s2 :: rest) env = Except.ok
      [MainEvent.build_flowsheet
          { NS := n1, NT := n2, solutes := ["Li", "Co"], flux := 1 / 10,
            sieving_coefficient := [("Li", 13 / 10), ("Co", 1 / 2)],
            feed := { solvent := 100, Li := 170, Co := 1700 },
            diafiltrate := { solvent := 30, Li := 3, Co := 6 },
            precipitate := true,
            precipitate_yield_permeate := [("Li", 81 / 100), ("Co", 1 / 100)],
            precipitate_yield_retentate := [("Li", 20 / 100), ("Co", 89 / 100)] } mix,
        MainEvent.initModel mix true,
        MainEvent.unfix_dof mix true,
        MainEvent.fixV "retentate" 500,
        MainEvent.fixV "permeate" 500,
        MainEvent.report_statistics,
        MainEvent.setR (8 / 10),
        MainEvent.solveModel,
        MainEvent.display "prec_perc_co",
        MainEvent.display "prec_perc_li",
        MainEvent.report_values] := by
  have hp : parseArgs ((prog :: mix :: s1 :: s2 :: rest).drop 1) =
      Except.ok (mix, n1, n2) := by
    show (pyInt s1 >>= fun num_s => pyInt s2 >>= fun num_t =>
        Except.ok (mix, num_s, num_t) : Except PyError (String × Int × Int)) =
      Except.ok (mix, n1, n2)
    rw [h1]
    show (pyInt s2 >>= fun num_t => Except.ok (mix, n1, num_t) :
        Except PyError (String × Int × Int)) = Except.ok (mix, n1, n2)
    rw [h2]
    rfl
  rw [main_eq_of_parse _ env _ _ _ hp]
  norm_num [mainTrace, mainConfig]

/-- Witness for C8 on the concrete command line
`solve_diafiltration.py stage 2 3`. -/
theorem main_hardcoded_configuration_witness :
    main ["solve_diafiltration.py", "stage", "2", "3"] ⟨0, true⟩ = Except.ok
      [MainEvent.build_flowsheet
          { NS := 2, NT := 3, solutes := ["Li", "Co"], flux := 1 / 10,
            sieving_coefficient := [("Li", 13 / 10), ("Co", 1 / 2)],
            feed := { solvent := 100, Li := 170, Co := 1700 },
            diafiltrate := { solvent := 30, Li := 3, Co := 6 },
            precipitate := true,
            precipitate_yield_permeate := [("Li", 81 / 100), ("Co", 1 / 100)],
            precipitate_yield_retentate := [("Li", 20 / 100), ("Co", 89 / 100)] } "stage",
        MainEvent.initModel "stage" true,
        MainEvent.unfix_dof "stage" true,
        MainEvent.fixV "retentate" 500,
        MainEvent.fixV "permeate" 500,
        MainEvent.report_statistics,
        MainEvent.setR (8 / 10),
        MainEvent.solveModel,
        MainEvent.display "prec_perc_co",
        MainEvent.display "prec_perc_li",
        MainEvent.report_values] :=
  main_hardcoded_configuration "solve_diafiltration.py" "stage" "2" "3" [] 2 3
    ⟨0, true⟩ rfl rfl

/-- C10: every run that gets past argument collection builds the model with
`precipitate=True` and the fixed precipitate yields (permeate Li 0.81,
Co 0.01; retentate Li 0.20, Co 0.89), and sets `m.R = 0.8` before the
single solve; no command-line argument reaches any of these values. -/
theorem main_precipitate_constants (argv : List String) (env : SolveEnv)
    (tr : List MainEvent) (h : main argv env = Except.ok tr) :
    (∀ cfg mix, MainEvent.build_flowsheet cfg mix ∈ tr →
      cfg.precipitate = true ∧
      cfg.precipitate_yield_permeate = [("Li", 81 / 100), ("Co", 1 / 100)] ∧
      cfg.precipitate_yield_retentate = [("Li", 20 / 100), ("Co", 89 / 100)]) ∧
    (∃ cfg mix, MainEvent.build_flowsheet cfg mix ∈ tr) ∧
    (∃ i j, tr.get? i = some (MainEvent.setR (8 / 10)) ∧
      tr.get? j = some MainEvent.solveModel ∧ i < j) := by
  obtain ⟨mix, n1, n2, rfl⟩ := main_ok_shape argv env tr h
  refine ⟨?_, ⟨mainConfig n1 n2, mix, List.mem_cons_self _ _⟩,
    6, 7, rfl, rfl, by norm_num⟩
  intro cfg mix2 hm
  simp only [mainTrace, List.mem_cons, List.not_mem_nil, or_false] at hm
  rcases hm with he | he | he | he | he | he | he | he | he | he | he
  · injection he with hcfg hmix
    subst hcfg
    exact ⟨rfl, rfl, rfl⟩
  all_goals cases he

/-- Witness for C10 on a concrete successful run. -/
theorem main_precipitate_constants_witness :
    (∀ cfg mix, MainEvent.build_flowsheet cfg mix ∈ mainTrace "stage" 2 3 →
      cfg.precipitate = true ∧
      cfg.precipitate_yield_permeate = [("Li", 81 / 100), ("Co", 1 / 100)] ∧
      cfg.precipitate_yield_retentate = [("Li", 20 / 100), ("Co", 89 / 100)]) ∧
    (∃ cfg mix, MainEvent.build_flowsheet cfg mix ∈ mainTrace "stage" 2 3) ∧
    (∃ i j, (mainTrace "stage" 2 3).get? i = some (MainEvent.setR (8 / 10)) ∧
      (mainTrace "stage" 2 3).get? j = some MainEvent.solveModel ∧ i < j) :=
  main_precipitate_constants ["solve_diafiltration.py", "stage", "2", "3"]
    ⟨0, true⟩ (mainTrace "stage" 2 3) rfl

/-- Counterexample to C4: on the command line
`solve_diafiltration.py stage 2 3`, with the single ipopt solve terminating
non-optimally, `main` still returns normally and still displays both
recovery metrics and the full stream report — the termination status is
never inspected, so the non-optimal status is not surfaced as a failure. -/
theorem main_nonoptimal_not_surfaced :
    main ["solve_diafiltration.py", "stage", "2", "3"] ⟨0, false⟩ =
      Except.ok (mainTrace "stage" 2 3) ∧
    MainEvent.display "prec_perc_co" ∈ mainTrace "stage" 2 3 ∧
    MainEvent.display "prec_perc_li" ∈ mainTrace "stage" 2 3 ∧
    MainEvent.report_values ∈ mainTrace "stage" 2 3 := by
  refine ⟨rfl, ?_, ?_, ?_⟩ <;> simp [mainTrace]

/-- C4 amended: the external solver is invoked exactly once per run and is
never retried, but its termination status is ignored: the identical trace
(including the result displays) and the identical normal return are
produced for every termination status. -/
theorem main_single_solve_status_ignored (argv : List String) (env : SolveEnv)
    (tr : List MainEvent) (h : main argv env = Except.ok tr) :
    tr.count MainEvent.solveModel = 1 ∧
    (∀ env2 : SolveEnv, main argv env2 = Except.ok tr) ∧
    MainEvent.display "prec_perc_co" ∈ tr ∧
    MainEvent.display "prec_perc_li" ∈ tr ∧
    MainEvent.report_values ∈ tr := by
  obtain ⟨mix, n1, n2, rfl⟩ := main_ok_shape argv env tr h
  refine ⟨?_, fun env2 => h, ?_, ?_, ?_⟩
  · simp [mainTrace, List.count_cons]
  all_goals simp [mainTrace]

/-- Witness for the amended C4 on a concrete run. -/
theorem main_single_solve_status_ignored_witness :
    (mainTrace "stage" 2 3).count MainEvent.solveModel = 1 ∧
    (∀ env2 : SolveEnv, main ["solve_diafiltration.py", "stage", "2", "3"] env2 =
      Except.ok (mainTrace "stage" 2 3)) ∧
    MainEvent.display "prec_perc_co" ∈ mainTrace "stage" 2 3 ∧
    MainEvent.display "prec_perc_li" ∈ mainTrace "stage" 2 3 ∧
    MainEvent.report_values ∈ mainTrace "stage" 2 3 :=
  main_single_solve_status_ignored ["solve_diafiltration.py", "stage", "2", "3"]
    ⟨0, true⟩ (mainTrace "stage" 2 3) rfl

/-- Counterexample to C5: with an assembled degree-of-freedom count of 7
the driver neither raises nor reports a fatal error: the run returns
normally and still reaches the solve, so no explicit zero-DoF check exists
between `unfix_dof` and the solver invocation. -/
theorem main_no_fatal_dof_check :
    main ["solve_diafiltration.py", "stage", "2", "3"] ⟨7, true⟩ =
      Except.ok (mainTrace "stage" 2 3) ∧
    MainEvent.solveModel ∈ mainTrace "stage" 2 3 :=
  ⟨rfl, by simp [mainTrace]⟩

/-- C5 amended: after `unfix_dof` and the capacity fixes the driver only
calls `report_statistics`, which reports model statistics without
raising; the solve is then invoked unconditionally — the run is identical
for every degree-of-freedom count, so a nonzero count is not fatal and no
count is reported as an error. -/
theorem main_statistics_reported_solve_unconditional (argv : List String)
    (env : SolveEnv) (tr : List MainEvent) (h : main argv env = Except.ok tr) :
    (∃ i j k, tr.get? i = some MainEvent.report_statistics ∧
      tr.get? j = some MainEvent.solveModel ∧ i < j ∧
      (∃ mix, tr.get? k = some (MainEvent.unfix_dof mix true)) ∧ k < i) ∧
    (∀ d : Int, main argv ⟨d, env.optimalTermination⟩ = Except.ok tr) := by
  obtain ⟨mix, n1, n2, rfl⟩ := main_ok_shape argv env tr h
  exact ⟨⟨5, 7, 2, rfl, rfl, by norm_num, ⟨mix, rfl⟩, by norm_num⟩, fun d => h⟩

/-- Witness for the amended C5 on a concrete run. -/
theorem main_statistics_reported_solve_unconditional_witness :
    (∃ i j k, (mainTrace "stage" 2 3).get? i = some MainEvent.report_statistics ∧
      (mainTrace "stage" 2 3).get? j = some MainEvent.solveModel ∧ i < j ∧
      (∃ mix, (mainTrace "stage" 2 3).get? k = some (MainEvent.unfix_dof mix true)) ∧
      k < i) ∧
    (∀ d : Int, main ["solve_diafiltration.py", "stage", "2", "3"] ⟨d, true⟩ =
      Except.ok (mainTrace "stage" 2 3)) :=
  main_statistics_reported_solve_unconditional
    ["solve_diafiltration.py", "stage", "2", "3"] ⟨0, true⟩ (mainTrace "stage" 2 3) rfl

end Diafiltration
